import Mathlib

/-!
Verification development for the AingalLang runtime evaluator
(`src/interpreter.py`).

The interpreter is shallowly embedded: Python runtime values become the
inductive `Val` (Python `None` is `Val.vnone`, the `BreakStatement`
sentinel object is `Val.breakS`, Python `list` is `Val.list`); Python
floats are modelled as exact rationals (every float arising in the
verified claims is exactly representable); the mutable `Scope` object
graph becomes an arena (`St.scopes`, a list indexed by allocation order,
so a scope's parent always has a smaller index and chains are acyclic);
the `FunctionReturn` exception and `InterpreterError` faults become the
`ret` and `err` constructors of the `Out` monad-like result type.
Evaluation is driven by a fuel parameter so that every function is a
total, executable definition; fuel exhaustion is the distinguished error
`RErr.fuel`, never produced for the concrete programs evaluated below.

The front end (lexer/parser, `AingalLang*` classes) is external to the
repository source; syntax trees are modelled by the inductives `Expr`
and `Stmt` whose shapes follow the visitor methods of the interpreter.
-/

/-- Python runtime values as manipulated by the interpreter. -/
inductive Val where
  | vnone
  | int (n : ℤ)
  | float (q : ℚ)
  | bool (b : Bool)
  | str (s : String)
  | list (elems : List Val)
  | breakS
  deriving Repr

/-- Runtime fault kinds. The interpreter raises `InterpreterError` with
position data for user-facing diagnostics and plain `Exception` for the
rest; positions and messages are not claimed, so only the kind is kept. -/
inductive RErr where
  | fuel
  | undefinedVariable
  | undeclaredAssignment
  | duplicateDeclaration
  | parameterRedeclaration
  | ambiguousShadowedDeclaration
  | noParentScope
  | scopeDepthExceeded
  | duplicateFunction
  | duplicateParameter
  | unknownFunction
  | arityMismatch
  | typeMismatch
  | typeError
  | zeroDivision
  | nonNumericIncrement
  | undefinedIncrementTarget
  | unsupportedDimension
  | notInvertible
  | unpackError
  | invalidCast
  | popGlobalScope
  deriving Repr, DecidableEq

/-! ### Stringification (Python `str`) -/

/-- Decimal rendering of a terminating rational, matching Python `str`
on a float (`str(3.0) = "3.0"`, `str(-0.5) = "-0.5"`). Rationals whose
denominator has a prime factor other than 2 and 5 do not arise from the
programs treated here; they get a fraction rendering. -/
def pyStrFloat (q : ℚ) : String :=
  if q.den = 1 then toString q.num ++ ".0"
  else
    match (List.range 40).find? (fun k => (10 ^ (k + 1)) % q.den = 0) with
    | some k =>
      let k := k + 1
      let m := (q.num.natAbs * (10 ^ k)) / q.den
      let digits := toString m
      let padded :=
        if digits.length < k + 1 then
          String.mk (List.replicate (k + 1 - digits.length) '0') ++ digits
        else digits
      let sign := if q.num < 0 then "-" else ""
      sign ++ (padded.take (padded.length - k)) ++ "." ++ (padded.drop (padded.length - k))
    | none => toString q.num ++ "/" ++ toString q.den

mutual
/-- Python `str` of a runtime value (`str(None) = "None"`,
`str(True) = "True"`, lists render their elements). -/
def pyStr : Val → String
  | .vnone => "None"
  | .int n => toString n
  | .float q => pyStrFloat q
  | .bool b => if b then "True" else "False"
  | .str s => s
  | .list vs => "[" ++ pyStrList vs ++ "]"
  | .breakS => "<BreakStatement>"

def pyStrList : List Val → String
  | [] => ""
  | [v] => pyStr v
  | v :: rest => pyStr v ++ ", " ++ pyStrList rest
end

/-! ### Numeric views (Python `isinstance` tests; `bool` is a subclass
of `int` in Python, so booleans count as integers and as numbers) -/

/-- Numeric value of `v` when `isinstance(v, (int, float))` holds. -/
def numQ : Val → Option ℚ
  | .int n => some (n : ℚ)
  | .float q => some q
  | .bool b => some (if b then 1 else 0)
  | _ => none

/-- `isinstance(v, float)`. -/
def isFloatV : Val → Bool
  | .float _ => true
  | _ => false

/-- `isinstance(v, int)` (booleans included). -/
def isIntV : Val → Bool
  | .int _ => true
  | .bool _ => true
  | _ => false

/-- `isinstance(v, (int, float))`. -/
def isNumV (v : Val) : Bool := (numQ v).isSome

/-- `isinstance(v, str)`. -/
def isStrV : Val → Bool
  | .str _ => true
  | _ => false

/-- Integer value of `v` when `isinstance(v, int)` holds. -/
def pyIntOf : Val → Option ℤ
  | .int n => some n
  | .bool b => some (if b then 1 else 0)
  | _ => none

/-- Tag an arithmetic result: Python arithmetic yields a float when a
float operand was involved, else an int. When `isF` is false the
rational is integral by construction. -/
def mkNum (isF : Bool) (q : ℚ) : Val :=
  if isF then .float q else .int q.num

/-- Python truthiness (`bool(v)`): zero, empty string, empty list,
`False` and `None` are falsy; everything else is truthy. -/
def truthy : Val → Bool
  | .vnone => false
  | .int n => decide (n ≠ 0)
  | .float q => decide (q ≠ 0)
  | .bool b => b
  | .str s => decide (s ≠ "")
  | .list vs => !vs.isEmpty
  | .breakS => true

/-! ### Computable rational arithmetic

Mathlib's `Rat` field operations are compiled for speed and do not
reduce inside the kernel; the interpreter instead uses the following
`mkRat`-based operations, which do. They agree with the field
operations of `ℚ` (lemmas `qAdd_eq` … below), so theorem statements can
use ordinary rational arithmetic. -/

/-- `n / d` as a rational, for an integer denominator of either sign. -/
def qMk (n d : ℤ) : ℚ :=
  if d < 0 then mkRat (-n) (-d).toNat else mkRat n d.toNat

def qAdd (a b : ℚ) : ℚ :=
  qMk (a.num * b.den + b.num * a.den) ((a.den : ℤ) * (b.den : ℤ))

def qSub (a b : ℚ) : ℚ :=
  qMk (a.num * b.den - b.num * a.den) ((a.den : ℤ) * (b.den : ℤ))

def qMul (a b : ℚ) : ℚ :=
  qMk (a.num * b.num) ((a.den : ℤ) * (b.den : ℤ))

def qDiv (a b : ℚ) : ℚ :=
  qMk (a.num * b.den) ((a.den : ℤ) * b.num)

def qNeg (a : ℚ) : ℚ := mkRat (-a.num) a.den

/-- `⌊a / b⌋` for rationals, as floor division of the cross products. -/
def qFloorDivZ (a b : ℚ) : ℤ :=
  Int.fdiv (a.num * b.den) ((a.den : ℤ) * b.num)

mutual
/-- Python `==` on runtime values: cross-type numeric equality
(`1 == 1.0 == True`), string equality, deep list equality; values of
unrelated kinds compare unequal. -/
def pyEq : Val → Val → Bool
  | l, r =>
    match numQ l, numQ r with
    | some a, some b => a == b
    | _, _ =>
      match l, r with
      | .str a, .str b => a == b
      | .list vs, .list ws => pyEqList vs ws
      | .vnone, .vnone => true
      | _, _ => false

def pyEqList : List Val → List Val → Bool
  | [], [] => true
  | v :: vs, w :: ws => pyEq v w && pyEqList vs ws
  | _, _ => false
end

/-! ### Python binary operators on dynamic values -/

/-- Python `+`: numeric addition (float-tainting), string and list
concatenation; other combinations raise `TypeError`. -/
def pyAdd (l r : Val) : Except RErr Val :=
  match numQ l, numQ r with
  | some a, some b => .ok (mkNum (isFloatV l || isFloatV r) (qAdd a b))
  | _, _ =>
    match l, r with
    | .str a, .str b => .ok (.str (a ++ b))
    | .list a, .list b => .ok (.list (a ++ b))
    | _, _ => .error .typeError

/-- Python `-` on dynamic values. -/
def pySub (l r : Val) : Except RErr Val :=
  match numQ l, numQ r with
  | some a, some b => .ok (mkNum (isFloatV l || isFloatV r) (qSub a b))
  | _, _ => .error .typeError

/-- Repeat a string `n` times (Python `s * n`; non-positive `n` gives
the empty string). -/
def strRepeat (s : String) (n : ℤ) : String :=
  String.join (List.replicate n.toNat s)

/-- Python `*`: numeric multiplication, or sequence repetition when one
operand is a string/list and the other an integer. -/
def pyMul (l r : Val) : Except RErr Val :=
  match numQ l, numQ r with
  | some a, some b => .ok (mkNum (isFloatV l || isFloatV r) (qMul a b))
  | _, _ =>
    match l, r with
    | .str s, _ =>
      match pyIntOf r with
      | some n => .ok (.str (strRepeat s n))
      | none => .error .typeError
    | _, .str s =>
      match pyIntOf l with
      | some n => .ok (.str (strRepeat s n))
      | none => .error .typeError
    | .list xs, _ =>
      match pyIntOf r with
      | some n => .ok (.list (List.flatten (List.replicate n.toNat xs)))
      | none => .error .typeError
    | _, .list xs =>
      match pyIntOf l with
      | some n => .ok (.list (List.flatten (List.replicate n.toNat xs)))
      | none => .error .typeError
    | _, _ => .error .typeError

/-- Python `//` on integers: floor division (`-7 // 2 = -4`). Only the
integer/boolean case is reachable through `visitTerm`'s guard. -/
def pyFloorDiv (l r : Val) : Except RErr Val :=
  match pyIntOf l, pyIntOf r with
  | some a, some b =>
    if b = 0 then .error .zeroDivision else .ok (.int (Int.fdiv a b))
  | _, _ => .error .typeError

/-- Python `/`: true division, always yielding a float. -/
def pyTrueDiv (l r : Val) : Except RErr Val :=
  match numQ l, numQ r with
  | some a, some b =>
    if b = 0 then .error .zeroDivision else .ok (.float (qDiv a b))
  | _, _ => .error .typeError

/-- Python `%`: remainder with the divisor's sign
(`a % b = a - b * floor(a / b)`); integer when both operands are
integers, float otherwise. -/
def pyMod (l r : Val) : Except RErr Val :=
  match numQ l, numQ r with
  | some a, some b =>
    if b = 0 then .error .zeroDivision
    else if isFloatV l || isFloatV r then .ok (.float (qSub a (qMul b ((qFloorDivZ a b : ℤ) : ℚ))))
    else
      match pyIntOf l, pyIntOf r with
      | some x, some y => .ok (.int (Int.fmod x y))
      | _, _ => .error .typeError
  | _, _ => .error .typeError

/-- Python unary `-`. -/
def pyNeg : Val → Except RErr Val
  | .int n => .ok (.int (-n))
  | .float q => .ok (.float (qNeg q))
  | .bool b => .ok (.int (-(if b then 1 else 0)))
  | _ => .error .typeError

/-- Python unary `+`. -/
def pyPos : Val → Except RErr Val
  | .int n => .ok (.int n)
  | .float q => .ok (.float q)
  | .bool b => .ok (.int (if b then 1 else 0))
  | _ => .error .typeError

/-! ### The interpreter's visitor-level arithmetic -/

/-- `visitNumExpression`, operator `+`: if either operand is a string,
concatenate the `str` forms of both; otherwise Python addition. -/
def numAdd (l r : Val) : Except RErr Val :=
  if isStrV l || isStrV r then .ok (.str (pyStr l ++ pyStr r))
  else pyAdd l r

/-- `visitNumExpression`, operator `-`: both operands must satisfy
`isinstance(x, (int, float))`, else the interpreter raises its
"Unsupported operand types for -" `TypeError`. -/
def numSub (l r : Val) : Except RErr Val :=
  if isNumV l && isNumV r then pySub l r
  else .error .typeMismatch

/-- `visitTerm`, operator `/`: integer (floor) division when the right
operand is an `int` and the left is not a `float`; true division
otherwise. -/
def termDiv (l r : Val) : Except RErr Val :=
  if isIntV r && !isFloatV l then pyFloorDiv l r
  else pyTrueDiv l r

/-- Comparison operators of `comparisonOp`. -/
inductive CmpOp where
  | lt | gt | eq | ne | le | ge
  deriving Repr, DecidableEq

/-- `evaluateBinaryOp` restricted to the comparison operators used by
`visitNumComparison`: Python `<, >, ==, !=, <=, >=`. -/
def compareVals (op : CmpOp) (l r : Val) : Except RErr Val :=
  match op with
  | .eq => .ok (.bool (pyEq l r))
  | .ne => .ok (.bool (!pyEq l r))
  | _ =>
    match numQ l, numQ r with
    | some a, some b =>
      .ok (.bool (match op with
        | .lt => decide (a < b)
        | .gt => decide (b < a)
        | .le => decide (a ≤ b)
        | .ge => decide (b ≤ a)
        | _ => false))
    | _, _ =>
      match l, r with
      | .str a, .str b =>
        .ok (.bool (match op with
          | .lt => decide (a < b)
          | .gt => decide (b < a)
          | .le => decide (a ≤ b)
          | .ge => decide (b ≤ a)
          | _ => false))
      | _, _ => .error .typeError

/-! ### Scopes and interpreter state

A `Scope` object of the source becomes an arena slot; `parent` is the
arena index of the parent scope. Scopes are only ever allocated with an
already-existing parent, so a parent's index is strictly smaller than
its child's and chains are finite; the chain-walking functions below
take an explicit step budget, called with the arena size, which always
covers the chain length for states built by the interpreter. -/

structure Scope where
  vars : List (String × Val)
  parameters : List String
  parent : Option ℕ
  deriving Repr

/-- Association-list lookup (Python `dict` access / `in`). -/
def lookupA {α : Type} : List (String × α) → String → Option α
  | [], _ => none
  | (k, v) :: rest, key => if k = key then some v else lookupA rest key

/-- Association-list update (Python `dict` assignment: overwrite the
existing key or append). -/
def insertA {α : Type} : List (String × α) → String → α → List (String × α)
  | [], key, v => [(key, v)]
  | (k, w) :: rest, key, v =>
    if k = key then (k, v) :: rest else (k, w) :: insertA rest key v

/-- `Scope.has_variable`. -/
def hasVarIn (scopes : List Scope) (sid : ℕ) (name : String) : Bool :=
  match scopes[sid]? with
  | some sc => (lookupA sc.vars name).isSome
  | none => false

/-- `Scope.get_variable`: look in this scope, else recurse into the
parent chain; `none` when no scope in the chain binds the name. -/
def get_variable (scopes : List Scope) : ℕ → ℕ → String → Option Val
  | 0, _, _ => none
  | fuel + 1, sid, name =>
    match scopes[sid]? with
    | none => none
    | some sc =>
      match lookupA sc.vars name with
      | some v => some v
      | none =>
        match sc.parent with
        | none => none
        | some p => get_variable scopes fuel p name

/-- `Scope.is_parameter`: recursively checks this scope and ancestors. -/
def is_parameter (scopes : List Scope) : ℕ → ℕ → String → Bool
  | 0, _, _ => false
  | fuel + 1, sid, name =>
    match scopes[sid]? with
    | none => false
    | some sc =>
      if name ∈ sc.parameters then true
      else
        match sc.parent with
        | none => false
        | some p => is_parameter scopes fuel p name

/-- The reassignment walk of `visitVariableDeclarationOrAssignment`:
the nearest scope in the chain already containing `name`. -/
def findScopeWith (scopes : List Scope) : ℕ → ℕ → String → Option ℕ
  | 0, _, _ => none
  | fuel + 1, sid, name =>
    match scopes[sid]? with
    | none => none
    | some sc =>
      if (lookupA sc.vars name).isSome then some sid
      else
        match sc.parent with
        | none => none
        | some p => findScopeWith scopes fuel p name

/-- Walk up exactly `levels` parent links (`resolve_scope_for_assignment`
and `visitScopedIdentifier`); `none` when an ancestor is missing. -/
def walkParents (scopes : List Scope) : ℕ → ℕ → Option ℕ
  | sid, 0 => some sid
  | sid, levels + 1 =>
    match scopes[sid]? with
    | none => none
    | some sc =>
      match sc.parent with
      | none => none
      | some p => walkParents scopes p levels

/-- `_variable_exists_in_child_scopes`: walk from the current scope
toward `target`, stopping at `target` (exclusive); true when a walked
scope (the current scope included) binds `name`. -/
def variableExistsInChildScopes (scopes : List Scope) :
    ℕ → ℕ → ℕ → String → Bool
  | 0, _, _, _ => false
  | fuel + 1, cur, target, name =>
    if cur = target then false
    else
      match scopes[cur]? with
      | none => false
      | some sc =>
        if (lookupA sc.vars name).isSome then true
        else
          match sc.parent with
          | none => false
          | some p => variableExistsInChildScopes scopes fuel p target name

/-- The arena indices visited by `variableExistsInChildScopes` (the
walk from `cur` up to, but excluding, `target`), current scope first. -/
def childChain (scopes : List Scope) : ℕ → ℕ → ℕ → List ℕ
  | 0, _, _ => []
  | fuel + 1, cur, target =>
    if cur = target then []
    else
      match scopes[cur]? with
      | none => [cur]
      | some sc =>
        match sc.parent with
        | none => [cur]
        | some p => cur :: childChain scopes fuel p target

/-! ### Syntax trees

The front end (ANTLR lexer/parser) is not part of the repository
source; these inductives model the node shapes the visitor methods
consume. Numeric literals are already split into integer and float
forms (`visitFactorNumber` decides by the presence of a decimal point),
string literals carry their stripped text. -/

/-- Declared-type annotations of the grammar. -/
inductive Ty where
  | tint | tfloat | tbool | tstring | tmatrix
  deriving Repr, DecidableEq

/-- Expressions, following the factor/term/numExpression, comparison,
boolean-literal, scoped-identifier and function-call visitors. -/
inductive Expr where
  | intLit (n : ℤ)
  | floatLit (q : ℚ)
  | strLit (s : String)
  | trueLit
  | falseLit
  | ident (name : String)
  | scopedId (levels : ℕ) (name : String)
  | add (l r : Expr)
  | sub (l r : Expr)
  | mul (l r : Expr)
  | div (l r : Expr)
  | mod (l r : Expr)
  | neg (e : Expr)
  | pos (e : Expr)
  | cmp (op : CmpOp) (l r : Expr)
  | callE (fname : String) (args : List Expr)

/-- Assignment/declaration target: a plain identifier or a scoped
identifier `parent::…::name` with its count of `parent::` markers. -/
inductive Tgt where
  | plain (name : String)
  | scopedT (levels : ℕ) (name : String)

/-- Statements, following `visitStatement`'s dispatch. A
declaration and a reassignment share one node (`visitVariableDeclarationOrAssignment`
distinguishes them by the `SET` keyword, here the `isDecl` flag).
For-loops are not modelled: no claim involves them, and the for-position
redeclaration waiver is therefore not modelled either. -/
inductive Stmt where
  | declAssign (isDecl : Bool) (tgt : Tgt) (declaredType : Option Ty) (e : Expr)
  | funcDecl (name : String) (params : List String) (body : List Stmt)
  | callStmt (fname : String) (args : List Expr)
  | retStmt (e : Expr)
  | display (es : List Expr)
  | ifS (branches : List (Expr × Stmt)) (els : Option Stmt)
  | whileS (cond : Expr) (body : List Stmt)
  | block (stmts : List Stmt)
  | breakStmt
  | incDec (name : String) (inc : Bool)

/-- A registered function: parameter names, the body block's statement
list, and the arena index of the defining scope (`self.functions[name] =
{"params": …, "body": …, "scope": self.current_scope}`). -/
structure Func where
  params : List String
  body : List Stmt
  scope : ℕ

/-- Interpreter state: the scope arena, the active scope, the function
registry, the flat legacy `memory` map used by `visitOperation`, the
accumulated output log, the one-shot block-scope-suppression flag and
the call stack (bookkeeping only; frames are kept as function names). -/
structure St where
  scopes : List Scope
  currentScope : ℕ
  functions : List (String × Func)
  memory : List (String × Val)
  outputLines : List String
  skipNextBlockScope : Bool
  callStack : List String

/-- `push_env`: allocate a child of the current scope and make it
current. -/
def push_env (s : St) : St :=
  { s with
    scopes := s.scopes ++ [⟨[], [], some s.currentScope⟩],
    currentScope := s.scopes.length }

/-- `pop_env`: step back to the parent scope; `none` when the current
scope has no parent ("Cannot pop global scope"). -/
def pop_env (s : St) : Option St :=
  match s.scopes[s.currentScope]? with
  | some sc =>
    match sc.parent with
    | some p => some { s with currentScope := p }
    | none => none
  | none => none

/-- `Scope.set_variable` on the arena slot `sid`. -/
def setVarInScope (s : St) (sid : ℕ) (name : String) (v : Val)
    (isParam : Bool) : St :=
  match s.scopes[sid]? with
  | none => s
  | some sc =>
    { s with
      scopes := s.scopes.set sid
        { sc with
          vars := insertA sc.vars name v,
          parameters := if isParam then name :: sc.parameters else sc.parameters } }

/-! ### Casting (`cast_value`) -/

/-- Digits of a decimal string, `none` when empty or non-numeric. -/
def parseDigits (cs : List Char) : Option ℕ :=
  if cs.isEmpty then none
  else if cs.all Char.isDigit then
    some (cs.foldl (fun a c => a * 10 + (c.toNat - 48)) 0)
  else none

/-- Python `float(string)` on plain decimal literals (optional sign,
integer part, optional fractional part). Exponent forms are not needed
by the verified claims and are rejected. -/
def pyFloatParse (s : String) : Option ℚ :=
  let cs := s.trim.toList
  let (sign, rest) : ℤ × List Char :=
    match cs with
    | '-' :: r => (-1, r)
    | '+' :: r => (1, r)
    | r => (1, r)
  let ip := rest.takeWhile (· ≠ '.')
  let fp := rest.dropWhile (· ≠ '.')
  match fp with
  | [] => (parseDigits ip).map (fun n => qMk (sign * n) 1)
  | '.' :: frac =>
    if ip.isEmpty && frac.isEmpty then none
    else
      let ipn := if ip.isEmpty then some 0 else parseDigits ip
      let fpn := if frac.isEmpty then some 0 else parseDigits frac
      match ipn, fpn with
      | some i, some f =>
        some (qMk (sign * ((i : ℤ) * (10 ^ frac.length) + (f : ℤ))) ((10 : ℤ) ^ frac.length))
      | _, _ => none
  | _ => none

/-- Python `float(value)`: numbers pass through (booleans as 0/1),
strings are parsed, everything else is a `TypeError`; a non-numeric
string is the `ValueError` that `cast_value` reports as an invalid
cast. -/
def toFloatQ : Val → Except RErr ℚ
  | .int n => .ok (n : ℚ)
  | .float q => .ok q
  | .bool b => .ok (if b then 1 else 0)
  | .str s =>
    match pyFloatParse s with
    | some q => .ok q
    | none => .error .invalidCast
  | _ => .error .typeError

/-- Python `int(float)`: truncation toward zero. -/
def ratTrunc (q : ℚ) : ℤ :=
  Int.tdiv q.num (q.den : ℤ)

/-- Is the value a Python list? -/
def isListV : Val → Bool
  | .list _ => true
  | _ => false

/-- A float whose fractional part is exactly zero becomes an int
(`isinstance(value, float) and value.is_integer()`); all other values
pass through. -/
def narrowFloat : Val → Val
  | .float q => if q.den = 1 then .int q.num else .float q
  | v => v

/-- `cast_value(value, type_str)`: with no declared type, integral
floats are narrowed; `int` truncates via `float`; `float` parses;
`bool` compares strings case-insensitively with "true" and coerces the
rest by truthiness; `string` stringifies; `matrix` demands a list of
lists. -/
def cast_value (v : Val) (ty : Option Ty) : Except RErr Val :=
  match ty with
  | none => .ok (narrowFloat v)
  | some .tint =>
    match v with
    | .bool b => .ok (.int (if b then 1 else 0))
    | _ => (toFloatQ v).map (fun q => .int (ratTrunc q))
  | some .tfloat => (toFloatQ v).map .float
  | some .tbool =>
    match v with
    | .str s => .ok (.bool (s.toLower = "true"))
    | _ => .ok (.bool (truthy v))
  | some .tstring => .ok (.str (pyStr v))
  | some .tmatrix =>
    match v with
    | .list rows => if rows.all isListV then .ok v else .error .invalidCast
    | _ => .error .invalidCast

/-! ### Evaluation results

`Out` is the result of visiting a node: `ok` is a normal Python return
value, `ret` is a propagating `FunctionReturn` exception, `err` is a
propagating runtime fault. `LoopStep` is the four-way outcome of the
statement loop inside `visitWhileLoop`. -/

inductive Out (α : Type) where
  | ok (a : α) (s : St)
  | ret (v : Val) (s : St)
  | err (e : RErr) (s : St)

inductive LoopStep where
  | done (s : St)
  | brk (s : St)
  | val (v : Val) (s : St)
  | lret (v : Val) (s : St)
  | lerr (e : RErr) (s : St)

/-- Bind each parameter name to its argument value, left to right
(`local_scope.set_variable(pname, arg, is_param=True)`). -/
def bindParams (params : List String) (args : List Val) : List (String × Val) :=
  (params.zip args).foldl (fun m pa => insertA m pa.1 pa.2) []

/-- The state in which a function body starts executing
(`callFunction` lines: create the local scope with the defining scope
as parent, bind parameters, switch `current_scope`, push the call
frame, and arm the one-shot block-scope suppression). -/
def callEntry (st : St) (name : String) (fn : Func) (args : List Val) : St :=
  { st with
    scopes := st.scopes ++ [⟨bindParams fn.params args, fn.params, some fn.scope⟩],
    currentScope := st.scopes.length,
    callStack := name :: st.callStack,
    skipNextBlockScope := true }

/-- The `finally` block of `callFunction`: pop the call frame and
restore the caller's active scope, on every exit path. -/
def restoreCaller (s : St) (callerScope : ℕ) : St :=
  { s with callStack := s.callStack.tail, currentScope := callerScope }

/-- Does a list of parameter names contain a repetition? -/
def hasDup : List String → Bool
  | [] => false
  | x :: xs => xs.contains x || hasDup xs

/-- `visitFunctionDeclaration`: duplicate names and duplicate
parameters are faults; otherwise store params, body and the current
scope as defining scope. -/
def visitFunctionDeclaration (name : String) (params : List String)
    (body : List Stmt) (st : St) : Out Val :=
  if (lookupA st.functions name).isSome then .err .duplicateFunction st
  else if hasDup params then .err .duplicateParameter st
  else
    .ok .vnone
      { st with functions := insertA st.functions name ⟨params, body, st.currentScope⟩ }

/-- `visitOperation` (`x++` / `x--`): reads and writes the flat
`self.memory` map, requires the target to be present and numeric
(`isinstance(current_value, (int, float))`, so booleans pass), and
yields the updated value. -/
def visitOperation (name : String) (inc : Bool) (st : St) : Out Val :=
  match lookupA st.memory name with
  | none => .err .undefinedIncrementTarget st
  | some v =>
    match v with
    | .int n =>
      let nv : Val := .int (if inc then n + 1 else n - 1)
      .ok nv { st with memory := insertA st.memory name nv }
    | .float q =>
      let nv : Val := .float (if inc then qAdd q 1 else qSub q 1)
      .ok nv { st with memory := insertA st.memory name nv }
    | .bool b =>
      let base : ℤ := if b then 1 else 0
      let nv : Val := .int (if inc then base + 1 else base - 1)
      .ok nv { st with memory := insertA st.memory name nv }
    | _ => .err .nonNumericIncrement st

mutual

/-- Expression evaluation, merging the factor/term/numExpression,
comparison, scoped-identifier and function-call visitors. -/
def evalExpr : ℕ → Expr → St → Out Val
  | 0, _, st => .err .fuel st
  | fuel + 1, e, st =>
    match e with
    | .intLit n => .ok (.int n) st
    | .floatLit q => .ok (.float q) st
    | .strLit s => .ok (.str s) st
    | .trueLit => .ok (.bool true) st
    | .falseLit => .ok (.bool false) st
    | .ident name =>
      match get_variable st.scopes st.scopes.length st.currentScope name with
      | some v => .ok v st
      | none => .err .undefinedVariable st
    | .scopedId levels name =>
      match walkParents st.scopes st.currentScope levels with
      | none => .err .scopeDepthExceeded st
      | some target =>
        match get_variable st.scopes st.scopes.length target name with
        | some v => .ok v st
        | none => .err .undefinedVariable st
    | .add l r => evalBin fuel numAdd l r st
    | .sub l r => evalBin fuel numSub l r st
    | .mul l r => evalBin fuel pyMul l r st
    | .div l r => evalBin fuel termDiv l r st
    | .mod l r => evalBin fuel pyMod l r st
    | .neg e1 => evalUn fuel pyNeg e1 st
    | .pos e1 => evalUn fuel pyPos e1 st
    | .cmp op l r => evalBin fuel (compareVals op) l r st
    | .callE f args =>
      match evalExprList fuel args st with
      | .ok vs s => callFunction fuel f vs s
      | .ret v s => .ret v s
      | .err er s => .err er s

/-- Evaluate both operands left to right, then apply a binary
operation. -/
def evalBin : ℕ → (Val → Val → Except RErr Val) → Expr → Expr → St → Out Val
  | 0, _, _, _, st => .err .fuel st
  | fuel + 1, f, l, r, st =>
    match evalExpr fuel l st with
    | .ok lv s =>
      match evalExpr fuel r s with
      | .ok rv s2 =>
        match f lv rv with
        | .ok v => .ok v s2
        | .error er => .err er s2
      | .ret v s2 => .ret v s2
      | .err er s2 => .err er s2
    | .ret v s => .ret v s
    | .err er s => .err er s

/-- Evaluate the operand, then apply a unary operation. -/
def evalUn : ℕ → (Val → Except RErr Val) → Expr → St → Out Val
  | 0, _, _, st => .err .fuel st
  | fuel + 1, f, e, st =>
    match evalExpr fuel e st with
    | .ok v s =>
      match f v with
      | .ok w => .ok w s
      | .error er => .err er s
    | .ret v s => .ret v s
    | .err er s => .err er s

/-- Evaluate an argument list left to right (`visitFunctionCall`'s
argument loop). -/
def evalExprList : ℕ → List Expr → St → Out (List Val)
  | _, [], st => .ok [] st
  | 0, _ :: _, st => .err .fuel st
  | fuel + 1, e :: rest, st =>
    match evalExpr fuel e st with
    | .ok v s =>
      match evalExprList fuel rest s with
      | .ok vs s2 => .ok (v :: vs) s2
      | .ret w s2 => .ret w s2
      | .err er s2 => .err er s2
    | .ret w s => .ret w s
    | .err er s => .err er s

/-- `callFunction`: look up the function, check arity, run the body
block in the freshly created call scope (with block-scope suppression
armed), catch a `FunctionReturn` as the result, and in all cases pop
the frame and restore the caller's scope. -/
def callFunction : ℕ → String → List Val → St → Out Val
  | 0, _, _, st => .err .fuel st
  | fuel + 1, name, args, st =>
    match lookupA st.functions name with
    | none => .err .unknownFunction st
    | some fn =>
      if fn.params.length ≠ args.length then .err .arityMismatch st
      else
        match visitBlockStatement fuel fn.body (callEntry st name fn args) with
        | .ok r s => .ok r (restoreCaller s st.currentScope)
        | .ret v s => .ok v (restoreCaller s st.currentScope)
        | .err er s => .err er (restoreCaller s st.currentScope)

/-- `visitBlockStatement`: when the one-shot suppression flag is armed,
clear it and run the statements in the ambient scope; otherwise push a
fresh child scope, run the statements, and pop it. Both paths return
`None`; statement results inside the block are discarded. A
propagating exception skips the pop. -/
def visitBlockStatement : ℕ → List Stmt → St → Out Val
  | 0, _, st => .err .fuel st
  | fuel + 1, stmts, st =>
    if st.skipNextBlockScope then
      match visitSeq fuel stmts { st with skipNextBlockScope := false } with
      | .ok _ s => .ok .vnone s
      | .ret v s => .ret v s
      | .err er s => .err er s
    else
      match visitSeq fuel stmts (push_env st) with
      | .ok _ s =>
        match pop_env s with
        | some s2 => .ok .vnone s2
        | none => .err .popGlobalScope s
      | .ret v s => .ret v s
      | .err er s => .err er s

/-- Run statements in order, discarding their results (the statement
loops of `visitBlockStatement`). -/
def visitSeq : ℕ → List Stmt → St → Out Unit
  | _, [], st => .ok () st
  | 0, _ :: _, st => .err .fuel st
  | fuel + 1, s0 :: rest, st =>
    match visitStatement fuel s0 st with
    | .ok _ s => visitSeq fuel rest s
    | .ret v s => .ret v s
    | .err er s => .err er s

/-- `visitVariableDeclarationOrAssignment`. Scoped targets: evaluate,
cast (or narrow integral floats when untyped), resolve the ancestor
scope, apply the shadow guard on declarations, and write directly into
the resolved scope. Plain declarations: parameter/duplicate checks,
then cast-or-narrow, then bind in the current scope. Plain
reassignments: find the nearest scope holding the name, cast only when
a type is declared (no narrowing), and write there. -/
def visitVariableDeclarationOrAssignment :
    ℕ → Bool → Tgt → Option Ty → Expr → St → Out Val
  | 0, _, _, _, _, st => .err .fuel st
  | fuel + 1, isDecl, tgt, declaredType, e, st =>
    match tgt with
    | .scopedT levels name =>
      match evalExpr fuel e st with
      | .ok v s =>
        match
          (match declaredType with
            | some t => cast_value v (some t)
            | none => .ok (narrowFloat v)) with
        | .error er => .err er s
        | .ok v2 =>
          match walkParents s.scopes s.currentScope levels with
          | none => .err .noParentScope s
          | some target =>
            if isDecl &&
                variableExistsInChildScopes s.scopes s.scopes.length
                  s.currentScope target name then
              .err .ambiguousShadowedDeclaration s
            else .ok .vnone (setVarInScope s target name v2 false)
      | .ret v s => .ret v s
      | .err er s => .err er s
    | .plain name =>
      match evalExpr fuel e st with
      | .ok v s =>
        if isDecl then
          if is_parameter s.scopes s.scopes.length s.currentScope name then
            .err .parameterRedeclaration s
          else if hasVarIn s.scopes s.currentScope name then
            .err .duplicateDeclaration s
          else
            match
              (match declaredType with
                | some t => cast_value v (some t)
                | none => .ok (narrowFloat v)) with
            | .error er => .err er s
            | .ok v2 => .ok .vnone (setVarInScope s s.currentScope name v2 false)
        else
          match findScopeWith s.scopes s.scopes.length s.currentScope name with
          | none => .err .undeclaredAssignment s
          | some sid =>
            match
              (match declaredType with
                | some t => cast_value v (some t)
                | none => .ok v) with
            | .error er => .err er s
            | .ok v2 => .ok .vnone (setVarInScope s sid name v2 false)
      | .ret v s => .ret v s
      | .err er s => .err er s

/-- `visitStatement`: dispatch on the statement kind; a standalone
function call with a non-`None` result additionally logs a
`Result: …` line. -/
def visitStatement : ℕ → Stmt → St → Out Val
  | 0, _, st => .err .fuel st
  | fuel + 1, stmt, st =>
    match stmt with
    | .declAssign isDecl tgt ty e =>
      visitVariableDeclarationOrAssignment fuel isDecl tgt ty e st
    | .funcDecl name params body => visitFunctionDeclaration name params body st
    | .callStmt f args =>
      match evalExprList fuel args st with
      | .ok vs s =>
        match callFunction fuel f vs s with
        | .ok r s2 =>
          match r with
          | .vnone => .ok r s2
          | _ =>
            .ok r { s2 with outputLines := s2.outputLines ++ ["Result: " ++ pyStr r] }
        | .ret v s2 => .ret v s2
        | .err er s2 => .err er s2
      | .ret v s => .ret v s
      | .err er s => .err er s
    | .retStmt e =>
      match evalExpr fuel e st with
      | .ok v s => .ret v s
      | .ret v s => .ret v s
      | .err er s => .err er s
    | .display es =>
      match evalExprList fuel es st with
      | .ok vs s =>
        .ok .vnone
          { s with outputLines := s.outputLines ++ [String.intercalate " " (vs.map pyStr)] }
      | .ret v s => .ret v s
      | .err er s => .err er s
    | .ifS branches els => visitIfStatement fuel branches els st
    | .whileS c body => visitWhileLoop fuel c body st
    | .block stmts => visitBlockStatement fuel stmts st
    | .breakStmt => .ok .breakS st
    | .incDec name inc => visitOperation name inc st

/-- `visitIfStatement`: evaluate conditions in source order, execute
the first true branch (or the else branch) and relay its result
unchanged; `None` when nothing fires. -/
def visitIfStatement : ℕ → List (Expr × Stmt) → Option Stmt → St → Out Val
  | 0, _, _, st => .err .fuel st
  | fuel + 1, branches, els, st =>
    match branches with
    | [] =>
      match els with
      | some b => visitStatement fuel b st
      | none => .ok .vnone st
    | (c, b) :: rest =>
      match evalExpr fuel c st with
      | .ok cv s =>
        if truthy cv then visitStatement fuel b s
        else visitIfStatement fuel rest els s
      | .ret v s => .ret v s
      | .err er s => .err er s

/-- `visitLoopStatements`: the dispatcher for statements inside loop
bodies. The grammar (external front end) routes nested loops and
`break` through its `loopStatement` branch; node kinds not among its
checks fall through and yield `None` without being executed. -/
def visitLoopStatements : ℕ → Stmt → St → Out Val
  | 0, _, st => .err .fuel st
  | fuel + 1, stmt, st =>
    match stmt with
    | .whileS c body => visitWhileLoop fuel c body st
    | .breakStmt => .ok .breakS st
    | .declAssign isDecl tgt ty e =>
      visitVariableDeclarationOrAssignment fuel isDecl tgt ty e st
    | .funcDecl name params body => visitFunctionDeclaration name params body st
    | .retStmt e =>
      match evalExpr fuel e st with
      | .ok v s => .ret v s
      | .ret v s => .ret v s
      | .err er s => .err er s
    | .ifS branches els => visitIfStatement fuel branches els st
    | .block stmts => visitBlockStatement fuel stmts st
    | .display es =>
      match evalExprList fuel es st with
      | .ok vs s =>
        .ok .vnone
          { s with outputLines := s.outputLines ++ [String.intercalate " " (vs.map pyStr)] }
      | .ret v s => .ret v s
      | .err er s => .err er s
    | .callStmt _ _ => .ok .vnone st
    | .incDec _ _ => .ok .vnone st

/-- The statement loop of one `visitWhileLoop` iteration: run the body
statements in order; a break sentinel stops the scan (`brk`), a
non-`None`, non-break result stops it carrying that value (`val`). -/
def evalLoopSeq : ℕ → List Stmt → St → LoopStep
  | _, [], st => .done st
  | 0, _ :: _, st => .lerr .fuel st
  | fuel + 1, s0 :: rest, st =>
    match visitLoopStatements fuel s0 st with
    | .ok .breakS s => .brk s
    | .ok .vnone s => evalLoopSeq fuel rest s
    | .ok v s => .val v s
    | .ret v s => .lret v s
    | .err er s => .lerr er s

/-- `visitWhileLoop`: re-evaluate the condition before each iteration;
push a fresh child scope per iteration and pop it on normal end, break
and early non-`None` exit; break returns `None` (consumed), an early
value is returned, and a propagating exception leaves without the
pop. -/
def visitWhileLoop : ℕ → Expr → List Stmt → St → Out Val
  | 0, _, _, st => .err .fuel st
  | fuel + 1, cond, body, st =>
    match evalExpr fuel cond st with
    | .ok cv s =>
      if truthy cv then
        match evalLoopSeq fuel body (push_env s) with
        | .brk s2 =>
          match pop_env s2 with
          | some s3 => .ok .vnone s3
          | none => .err .popGlobalScope s2
        | .val v s2 =>
          match pop_env s2 with
          | some s3 => .ok v s3
          | none => .err .popGlobalScope s2
        | .done s2 =>
          match pop_env s2 with
          | some s3 => visitWhileLoop fuel cond body s3
          | none => .err .popGlobalScope s2
        | .lret v s2 => .ret v s2
        | .lerr er s2 => .err er s2
      else .ok .vnone s
    | .ret v s => .ret v s
    | .err er s => .err er s

end

/-- `visitProgram`: run each top-level statement; any non-`None`,
non-break result is stringified and appended to the output log. -/
def visitProgram : ℕ → List Stmt → St → Out Unit
  | _, [], st => .ok () st
  | 0, _ :: _, st => .err .fuel st
  | fuel + 1, s0 :: rest, st =>
    match visitStatement fuel s0 st with
    | .ok r s =>
      match r with
      | .vnone => visitProgram fuel rest s
      | .breakS => visitProgram fuel rest s
      | v => visitProgram fuel rest { s with outputLines := s.outputLines ++ [pyStr v] }
    | .ret v s => .ret v s
    | .err er s => .err er s

/-- The interpreter's initial state: one global scope, empty registries
and logs. -/
def initSt : St := ⟨[⟨[], [], none⟩], 0, [], [], [], false, []⟩

/-- Run a program from the initial state. -/
def runProg (fuel : ℕ) (prog : List Stmt) : Out Unit := visitProgram fuel prog initSt

/-- The output log of a normally completed run. -/
def outLines {α : Type} : Out α → Option (List String)
  | .ok _ s => some s.outputLines
  | _ => none

/-- The value of a normally completed visit. -/
def okVal {α : Type} : Out α → Option α
  | .ok a _ => some a
  | _ => none

/-- The fault of an aborted visit. -/
def errOf {α : Type} : Out α → Option RErr
  | .err e _ => some e
  | _ => none

/-- The final state, whatever the outcome. -/
def stateOf {α : Type} : Out α → St
  | .ok _ s => s
  | .ret _ s => s
  | .err _ s => s

/-- The value bound to `name` (resolved from the final current scope)
after a normally completed run. -/
def varAfter (fuel : ℕ) (prog : List Stmt) (name : String) : Option Val :=
  match runProg fuel prog with
  | .ok _ s => get_variable s.scopes s.scopes.length s.currentScope name
  | _ => none

/-- `invert_matrix`: the dimension guard checks only the row count and
the first row's length (`len(matrix) != 2 or len(matrix[0]) != 2`);
then the rows are unpacked (a short or long second row is a Python
unpack error, not the dimension fault), the determinant is compared
with zero, and the closed-form inverse is assembled with true
division. -/
def invert_matrix (rows : List Val) : Except RErr (List Val) :=
  match rows with
  | [r0, r1] =>
    match r0 with
    | .list e0 =>
      if e0.length ≠ 2 then .error .unsupportedDimension
      else
        match e0, r1 with
        | [a, b], .list [c, d] =>
          match pyMul a d with
          | .error er => .error er
          | .ok ad =>
            match pyMul b c with
            | .error er => .error er
            | .ok bc =>
              match pySub ad bc with
              | .error er => .error er
              | .ok det =>
                if pyEq det (.int 0) then .error .notInvertible
                else
                  match pyTrueDiv d det with
                  | .error er => .error er
                  | .ok x00 =>
                    match pyNeg b with
                    | .error er => .error er
                    | .ok nb =>
                      match pyTrueDiv nb det with
                      | .error er => .error er
                      | .ok x01 =>
                        match pyNeg c with
                        | .error er => .error er
                        | .ok nc =>
                          match pyTrueDiv nc det with
                          | .error er => .error er
                          | .ok x10 =>
                            match pyTrueDiv a det with
                            | .error er => .error er
                            | .ok x11 =>
                              .ok [Val.list [x00, x01], Val.list [x10, x11]]
        | _, _ => .error .unpackError
    | _ => .error .typeError
  | _ => .error .unsupportedDimension

/-! ### Concrete programs used by the claims -/

/-- Declare `x := a`; inside a block declare `f` returning `x` and then
mutate `x` to `b`; after the block exits, call `f`. -/
def closureProg (a b : ℤ) : List Stmt :=
  [ .declAssign true (.plain "x") none (.intLit a),
    .block
      [ .funcDecl "f" [] [.retStmt (.ident "x")],
        .declAssign false (.plain "x") none (.intLit b) ],
    .callStmt "f" [] ]

/-- `f` is declared at the global scope and reads `x`; `g` declares its
own local `x` and calls `f`: under lexical capture `f` sees the global
`x = a`, under dynamic (caller-scope) capture it would see `g`'s
`x = b`. -/
def lexProg (a b : ℤ) : List Stmt :=
  [ .declAssign true (.plain "x") none (.intLit a),
    .funcDecl "f" [] [.retStmt (.ident "x")],
    .funcDecl "g" []
      [ .declAssign true (.plain "x") none (.intLit b),
        .retStmt (.callE "f" []) ],
    .callStmt "g" [] ]

/-- `g` returns 5; `f`'s body is the bare call `g()` as its last (and
only) statement; `y` receives `f()`; display `y`. -/
def progC1 : List Stmt :=
  [ .funcDecl "g" [] [.retStmt (.intLit 5)],
    .funcDecl "f" [] [.callStmt "g" []],
    .declAssign true (.plain "y") none (.callE "f" []),
    .display [.ident "y"] ]

/-- The state after declaring `g` and `f` of `progC1`. -/
def stC1 : St :=
  stateOf (visitProgram 20
    [ Stmt.funcDecl "g" [] [.retStmt (.intLit 5)],
      Stmt.funcDecl "f" [] [.callStmt "g" []] ] initSt)

/-- The state in which `f`'s body statements run during `callFunction`
(the call-entry state with the one-shot suppression flag already
consumed by `visitBlockStatement`). -/
def stC1inner : St :=
  { callEntry stC1 "f" ⟨[], [.callStmt "g" []], 0⟩ [] with
    skipNextBlockScope := false }

/-- Outer while counts `i` to 2 and displays it; the inner while breaks
immediately. -/
def progC3 : List Stmt :=
  [ .declAssign true (.plain "i") none (.intLit 0),
    .whileS (.cmp .lt (.ident "i") (.intLit 2))
      [ .whileS .trueLit [.breakStmt],
        .declAssign false (.plain "i") none (.add (.ident "i") (.intLit 1)),
        .display [.ident "i"] ] ]

/-- Untyped `Set x to 2.5` followed by the untyped plain reassignment
`x = 3.0`. -/
def progC4 : List Stmt :=
  [ .declAssign true (.plain "x") none (.floatLit (mkRat 5 2)),
    .declAssign false (.plain "x") none (.floatLit (mkRat 3 1)) ]

/-- Inside a block: declare local `x`, then declare `parent::x`; the
target is the immediate parent, so no scope lies strictly between the
current scope and the target. -/
def progC8 : List Stmt :=
  [ .block
      [ .declAssign true (.plain "x") none (.intLit 1),
        .declAssign true (.scopedT 1 "x") none (.intLit 2) ] ]

/-- Inside a block: declare local `x`, then plain-write `parent::x`;
after the block, display the global `x`. -/
def progC8b : List Stmt :=
  [ .block
      [ .declAssign true (.plain "x") none (.intLit 1),
        .declAssign false (.scopedT 1 "x") none (.intLit 2) ],
    .display [.ident "x"] ]

/-- A while loop whose body starts with a block containing only
`break`: the block swallows the break sentinel, so the loop runs to
completion. -/
def progC10 : List Stmt :=
  [ .declAssign true (.plain "i") none (.intLit 0),
    .whileS (.cmp .lt (.ident "i") (.intLit 2))
      [ .block [.breakStmt],
        .declAssign false (.plain "i") none (.add (.ident "i") (.intLit 1)),
        .display [.ident "i"] ] ]

/-- A one-scope state with `x` bound to the float 2.5 (for the
reassignment witness). -/
def stC4w : St := { initSt with scopes := [⟨[("x", .float (mkRat 5 2))], [], none⟩] }

/-- Two nested scopes, the inner one holding `x` (for the shadow-guard
witness). -/
def stC8w : St :=
  { initSt with
    scopes := [⟨[], [], none⟩, ⟨[("x", .int 1)], [], some 0⟩],
    currentScope := 1 }

/-- Truncating integer division (rounding toward zero), the reading of
"truncating" used by the specification text; compared against the
interpreter's floor division. -/
def truncDivZ (a b : ℤ) : ℤ := Int.tdiv a b

/-! ## Theorems

First, the bridge lemmas identifying the computable rational operations
with the field operations of `ℚ`. -/

theorem qMk_eq (n d : ℤ) : qMk n d = (n : ℚ) / (d : ℚ) := by
  unfold qMk
  split
  · rename_i h
    rw [Rat.mkRat_eq_div,
      show (((-d).toNat : ℕ) : ℚ) = ((-d : ℤ) : ℚ) from by
        exact_mod_cast Int.toNat_of_nonneg (by omega : (0:ℤ) ≤ -d)]
    push_cast
    rw [neg_div_neg_eq]
  · rename_i h
    rw [Rat.mkRat_eq_div,
      show ((d.toNat : ℕ) : ℚ) = ((d : ℤ) : ℚ) from by
        exact_mod_cast Int.toNat_of_nonneg (by omega : (0:ℤ) ≤ d)]

theorem qAdd_eq (a b : ℚ) : qAdd a b = a + b := by
  have ha : ((a.den : ℚ)) ≠ 0 := Nat.cast_ne_zero.mpr a.den_nz
  have hb : ((b.den : ℚ)) ≠ 0 := Nat.cast_ne_zero.mpr b.den_nz
  rw [qAdd, qMk_eq]
  push_cast
  conv_rhs => rw [← Rat.num_div_den a, ← Rat.num_div_den b]
  rw [div_add_div _ _ ha hb]
  ring_nf

theorem qSub_eq (a b : ℚ) : qSub a b = a - b := by
  have ha : ((a.den : ℚ)) ≠ 0 := Nat.cast_ne_zero.mpr a.den_nz
  have hb : ((b.den : ℚ)) ≠ 0 := Nat.cast_ne_zero.mpr b.den_nz
  rw [qSub, qMk_eq]
  push_cast
  conv_rhs => rw [← Rat.num_div_den a, ← Rat.num_div_den b]
  rw [div_sub_div _ _ ha hb]
  ring_nf

theorem qMul_eq (a b : ℚ) : qMul a b = a * b := by
  have ha : ((a.den : ℚ)) ≠ 0 := Nat.cast_ne_zero.mpr a.den_nz
  have hb : ((b.den : ℚ)) ≠ 0 := Nat.cast_ne_zero.mpr b.den_nz
  rw [qMul, qMk_eq]
  push_cast
  conv_rhs => rw [← Rat.num_div_den a, ← Rat.num_div_den b]
  rw [div_mul_div_comm]

theorem qNeg_eq (a : ℚ) : qNeg a = -a := by
  rw [qNeg, Rat.mkRat_eq_div]
  push_cast
  rw [neg_div, Rat.num_div_den]

theorem qDiv_eq (a b : ℚ) : qDiv a b = a / b := by
  by_cases hbn : b.num = 0
  · have hb0 : b = 0 := Rat.zero_iff_num_zero.mpr hbn
    subst hb0
    simp [qDiv, qMk_eq]
  · have ha : ((a.den : ℚ)) ≠ 0 := Nat.cast_ne_zero.mpr a.den_nz
    have hb : ((b.den : ℚ)) ≠ 0 := Nat.cast_ne_zero.mpr b.den_nz
    have hbnq : ((b.num : ℚ)) ≠ 0 := Int.cast_ne_zero.mpr hbn
    have hb0 : b ≠ 0 := fun h => hbn (by simp [h])
    have key_a : (a.den : ℚ) * a = a.num := by
      rw [(div_eq_iff ha).mp (Rat.num_div_den a)]
      ring
    have key_b : (b.den : ℚ) * b = b.num := by
      rw [(div_eq_iff hb).mp (Rat.num_div_den b)]
      ring
    rw [qDiv, qMk_eq]
    push_cast
    rw [div_eq_div_iff (mul_ne_zero ha hbnq) hb0]
    linear_combination (a.num : ℚ) * key_b - (b.num : ℚ) * key_a

/-! ### Helper lemmas and claim theorems -/

theorem blockStmt_ok_vnone :
    ∀ (fuel : ℕ) (stmts : List Stmt) (st : St) (v : Val) (s' : St),
      visitBlockStatement fuel stmts st = .ok v s' → v = .vnone := by
  intro fuel stmts st v s' h
  match fuel with
  | 0 => simp [visitBlockStatement] at h
  | fuel + 1 =>
    rw [visitBlockStatement] at h
    split at h
    · split at h <;> simp_all
    · split at h
      · split at h <;> simp_all
      · simp_all
      · simp_all

/-- Claim C10: executing a block statement along the normal
(non-suppressed) path always yields `None`; the results of the
statements inside, a break sentinel included, are discarded — shown
also on `progC10`, whose loop runs to completion because the block
swallows the `break`. -/
theorem c10_block_discards :
    (∀ (fuel : ℕ) (stmts : List Stmt) (st : St) (v : Val) (s' : St),
      st.skipNextBlockScope = false →
      visitBlockStatement fuel stmts st = .ok v s' → v = .vnone) ∧
    outLines (runProg 40 progC10) = some ["1", "2"] :=
  ⟨fun fuel stmts st v s' _ h => blockStmt_ok_vnone fuel stmts st v s' h, rfl⟩

/-- Witness for C10: a block containing a bare `break` executed at the
top level yields `None`. -/
theorem c10_witness :
    initSt.skipNextBlockScope = false ∧
    visitBlockStatement 5 [.breakStmt] initSt =
      .ok .vnone (stateOf (visitBlockStatement 5 [.breakStmt] initSt)) ∧
    Val.vnone = Val.vnone :=
  ⟨rfl, rfl,
    c10_block_discards.1 5 [.breakStmt] initSt .vnone
      (stateOf (visitBlockStatement 5 [.breakStmt] initSt)) rfl rfl⟩

/-- Claim C1, counterexample: `f`'s body is the single statement
`g()`, which yields 5 (second conjunct, evaluated in the very state in
which `f`'s body runs), yet `f`'s call completes without a return
unwind and its result is `None`, not 5 (first conjunct); in `progC1`
the value bound from `f()` displays as `None` while the inner call
logged `Result: 5`. -/
theorem c1_counterexample :
    okVal (callFunction 20 "f" [] stC1) = some .vnone ∧
    okVal (visitStatement 20 (.callStmt "g" []) stC1inner) = some (.int 5) ∧
    outLines (runProg 30 progC1) = some ["Result: 5", "None"] :=
  ⟨rfl, rfl, rfl⟩

/-- Claim C1 (amended): when the body block completes without a return
unwind the call's result is `None` (the block discards its statements'
results); when the body raises a return unwind, the carried value is
the call's result. -/
theorem c1_call_result (fuel : ℕ) (name : String) (args : List Val) (st : St)
    (fn : Func) (h : lookupA st.functions name = some fn)
    (harity : fn.params.length = args.length) :
    (∀ x s, visitBlockStatement fuel fn.body (callEntry st name fn args) = .ok x s →
      callFunction (fuel + 1) name args st = .ok .vnone (restoreCaller s st.currentScope)) ∧
    (∀ v s, visitBlockStatement fuel fn.body (callEntry st name fn args) = .ret v s →
      callFunction (fuel + 1) name args st = .ok v (restoreCaller s st.currentScope)) := by
  constructor
  · intro x s hblock
    have hx : x = .vnone :=
      blockStmt_ok_vnone fuel fn.body (callEntry st name fn args) x s hblock
    rw [callFunction, h]
    simp [harity, hblock, hx]
  · intro v s hblock
    rw [callFunction, h]
    simp [harity, hblock]

/-- Witness for C1 at a concrete call (`g` of `progC1`'s registry). -/
theorem c1_witness :
    lookupA stC1.functions "g" = some ⟨[], [.retStmt (.intLit 5)], 0⟩ ∧
    visitBlockStatement 10 [.retStmt (.intLit 5)]
        (callEntry stC1 "g" ⟨[], [.retStmt (.intLit 5)], 0⟩ []) =
      .ret (.int 5) (stateOf (visitBlockStatement 10 [.retStmt (.intLit 5)]
        (callEntry stC1 "g" ⟨[], [.retStmt (.intLit 5)], 0⟩ []))) ∧
    callFunction 11 "g" [] stC1 =
      .ok (.int 5) (restoreCaller (stateOf (visitBlockStatement 10 [.retStmt (.intLit 5)]
        (callEntry stC1 "g" ⟨[], [.retStmt (.intLit 5)], 0⟩ []))) stC1.currentScope) := by
  refine ⟨rfl, rfl, ?_⟩
  exact (c1_call_result 10 "g" [] stC1 ⟨[], [.retStmt (.intLit 5)], 0⟩ rfl rfl).2 (.int 5) _ rfl

/-- Claim C2: a function declaration captures the scope active at the
declaration as defining scope; every invocation allocates its call
scope with the *defining* scope as parent (shown for an arbitrary state
and defining scope `d`, independent of the caller's current scope); and
the closure program observes the latest mutation of the captured
variable made before its block exited. -/
theorem c2_lexical_capture :
    (∀ (st : St) (name : String) (params : List String) (body : List Stmt),
      lookupA st.functions name = none → hasDup params = false →
      visitFunctionDeclaration name params body st =
        .ok .vnone { st with
          functions := insertA st.functions name ⟨params, body, st.currentScope⟩ }) ∧
    (∀ (st : St) (name : String) (fn : Func) (args : List Val),
      (callEntry st name fn args).scopes[st.scopes.length]? =
        some ⟨bindParams fn.params args, fn.params, some fn.scope⟩ ∧
      (callEntry st name fn args).currentScope = st.scopes.length) ∧
    (∀ (fuel : ℕ) (st : St) (name : String) (d : ℕ),
      lookupA st.functions name = some ⟨[], [], d⟩ →
      callFunction (fuel + 2) name [] st =
        .ok .vnone { st with
          scopes := st.scopes ++ [⟨[], [], some d⟩],
          skipNextBlockScope := false }) ∧
    (∀ a b : ℤ,
      outLines (runProg 30 (closureProg a b)) =
        some ["Result: " ++ toString b, toString b]) ∧
    (∀ a b : ℤ,
      outLines (runProg 40 (lexProg a b)) =
        some ["Result: " ++ toString a, toString a]) := by
  refine ⟨?_, ?_, ?_, ?_, ?_⟩
  · intro st name params body h1 h2
    simp [visitFunctionDeclaration, h1, h2]
  · intro st name fn args
    constructor
    · simp [callEntry]
    · rfl
  · intro fuel st name d h
    rw [callFunction, h]
    simp [visitBlockStatement, callEntry, bindParams, visitSeq, restoreCaller]
  · intro a b
    rfl
  · intro a b
    rfl

/-- Witness for C2 at concrete inputs. -/
theorem c2_witness :
    lookupA initSt.functions "f" = none ∧
    hasDup ([] : List String) = false ∧
    visitFunctionDeclaration "f" [] [] initSt =
      .ok .vnone { initSt with functions := [("f", ⟨[], [], 0⟩)] } ∧
    (callEntry initSt "f" ⟨["p"], [], 0⟩ [.int 7]).scopes[initSt.scopes.length]? =
      some ⟨bindParams ["p"] [.int 7], ["p"], some 0⟩ ∧
    lookupA [("f", Func.mk [] [] 0)] "f" = some ⟨[], [], 0⟩ ∧
    callFunction 7 "f" [] { initSt with functions := [("f", ⟨[], [], 0⟩)] } =
      .ok .vnone { initSt with
        functions := [("f", ⟨[], [], 0⟩)],
        scopes := [⟨[], [], none⟩, ⟨[], [], some 0⟩] } ∧
    outLines (runProg 30 (closureProg 1 2)) = some ["Result: 2", "2"] ∧
    outLines (runProg 40 (lexProg 1 2)) = some ["Result: 1", "1"] := by
  refine ⟨rfl, rfl, ?_, ?_, rfl, ?_, ?_, ?_⟩
  · exact c2_lexical_capture.1 initSt "f" [] [] rfl rfl
  · exact (c2_lexical_capture.2.1 initSt "f" ⟨["p"], [], 0⟩ [.int 7]).1
  · exact c2_lexical_capture.2.2.1 5 { initSt with functions := [("f", ⟨[], [], 0⟩)] } "f" 0 rfl
  · exact c2_lexical_capture.2.2.2.1 1 2
  · exact c2_lexical_capture.2.2.2.2 1 2

/-- Claim C3: each while iteration runs its body in a freshly pushed
child scope (`push_env`), popped on every exit of the iteration —
normal end, break, early non-`None` value; a break sentinel produced by
a body statement stops the scan and the loop returns `None` (the break
is consumed, never propagated); a non-`None`, non-break result stops
the loop and is returned; a false condition ends the loop; and in the
nested-loop program the inner `break` exits only the inner loop. -/
theorem c3_while_loop :
    (∀ (fuel : ℕ) (cond : Expr) (body : List Stmt) (st : St) (cv : Val) (s : St),
      evalExpr fuel cond st = .ok cv s → truthy cv = true →
      (∀ s2 s3, evalLoopSeq fuel body (push_env s) = .brk s2 → pop_env s2 = some s3 →
        visitWhileLoop (fuel + 1) cond body st = .ok .vnone s3) ∧
      (∀ v s2 s3, evalLoopSeq fuel body (push_env s) = .val v s2 → pop_env s2 = some s3 →
        visitWhileLoop (fuel + 1) cond body st = .ok v s3) ∧
      (∀ s2 s3, evalLoopSeq fuel body (push_env s) = .done s2 → pop_env s2 = some s3 →
        visitWhileLoop (fuel + 1) cond body st = visitWhileLoop fuel cond body s3)) ∧
    (∀ (fuel : ℕ) (cond : Expr) (body : List Stmt) (st : St) (cv : Val) (s : St),
      evalExpr fuel cond st = .ok cv s → truthy cv = false →
      visitWhileLoop (fuel + 1) cond body st = .ok .vnone s) ∧
    (∀ (fuel : ℕ) (s0 : Stmt) (rest : List Stmt) (st : St) (v : Val) (s : St),
      visitLoopStatements fuel s0 st = .ok v s →
      ((v = .breakS → evalLoopSeq (fuel + 1) (s0 :: rest) st = .brk s) ∧
       (v = .vnone → evalLoopSeq (fuel + 1) (s0 :: rest) st = evalLoopSeq fuel rest s) ∧
       (v ≠ .breakS → v ≠ .vnone → evalLoopSeq (fuel + 1) (s0 :: rest) st = .val v s))) ∧
    outLines (runProg 40 progC3) = some ["1", "2"] := by
  refine ⟨?_, ?_, ?_, rfl⟩
  · intro fuel cond body st cv s hc ht
    refine ⟨?_, ?_, ?_⟩
    · intro s2 s3 hseq hpop
      rw [visitWhileLoop, hc]
      simp [ht, hseq, hpop]
    · intro v s2 s3 hseq hpop
      rw [visitWhileLoop, hc]
      simp [ht, hseq, hpop]
    · intro s2 s3 hseq hpop
      rw [visitWhileLoop, hc]
      simp [ht, hseq, hpop]
  · intro fuel cond body st cv s hc ht
    rw [visitWhileLoop, hc]
    simp [ht]
  · intro fuel s0 rest st v s h
    refine ⟨?_, ?_, ?_⟩
    · intro hv
      subst hv
      rw [evalLoopSeq, h]
    · intro hv
      subst hv
      rw [evalLoopSeq, h]
    · intro hb hn
      rw [evalLoopSeq, h]
      cases v <;> simp_all

/-- Witness for C3 at concrete inputs. -/
theorem c3_witness :
    evalExpr 5 Expr.trueLit initSt = .ok (.bool true) initSt ∧
    truthy (Val.bool true) = true ∧
    evalLoopSeq 5 [Stmt.breakStmt] (push_env initSt) =
      .brk (push_env initSt) ∧
    pop_env (push_env initSt) = some { initSt with scopes := (push_env initSt).scopes } ∧
    visitWhileLoop 6 Expr.trueLit [Stmt.breakStmt] initSt =
      .ok .vnone { initSt with scopes := (push_env initSt).scopes } ∧
    visitLoopStatements 5 Stmt.breakStmt initSt = .ok .breakS initSt ∧
    evalLoopSeq 6 [Stmt.breakStmt] initSt = .brk initSt := by
  refine ⟨rfl, rfl, rfl, rfl, ?_, rfl, ?_⟩
  · exact ((c3_while_loop.1 5 Expr.trueLit [Stmt.breakStmt] initSt (.bool true) initSt
      rfl rfl).1 (push_env initSt) _ rfl rfl)
  · exact (c3_while_loop.2.2.1 5 Stmt.breakStmt [] initSt .breakS initSt rfl).1 rfl

/-- Claim C4, counterexample: after the untyped plain reassignment
`x = 3.0` in `progC4`, the stored value is the float 3.0, not the
integer 3 that storage-point narrowing would produce. -/
theorem c4_counterexample :
    varAfter 30 progC4 "x" = some (.float (mkRat 3 1)) ∧
    mkRat 3 1 = (3 : ℚ) ∧
    Val.float (mkRat 3 1) ≠ Val.int 3 :=
  ⟨rfl, by rw [Rat.mkRat_eq_div]; norm_num, by simp⟩

/-- Claim C4 (amended): a float with zero fractional part is narrowed
to an int when stored through an untyped *plain declaration* and
through an untyped *scoped (explicit-parent) store*, but an untyped
plain *reassignment* stores the float unchanged; arithmetic results are
not narrowed. -/
theorem c4_narrowing :
    (∀ (fuel : ℕ) (st : St) (name : String) (e : Expr) (q : ℚ) (s : St),
      evalExpr fuel e st = .ok (.float q) s → q.den = 1 →
      is_parameter s.scopes s.scopes.length s.currentScope name = false →
      hasVarIn s.scopes s.currentScope name = false →
      visitVariableDeclarationOrAssignment (fuel + 1) true (.plain name) none e st =
        .ok .vnone (setVarInScope s s.currentScope name (.int q.num) false)) ∧
    (∀ (fuel : ℕ) (st : St) (levels : ℕ) (name : String) (e : Expr) (q : ℚ)
        (s : St) (target : ℕ),
      evalExpr fuel e st = .ok (.float q) s → q.den = 1 →
      walkParents s.scopes s.currentScope levels = some target →
      visitVariableDeclarationOrAssignment (fuel + 1) false (.scopedT levels name) none e st =
        .ok .vnone (setVarInScope s target name (.int q.num) false)) ∧
    (∀ (fuel : ℕ) (st : St) (name : String) (e : Expr) (q : ℚ) (s : St) (sid : ℕ),
      evalExpr fuel e st = .ok (.float q) s →
      findScopeWith s.scopes s.scopes.length s.currentScope name = some sid →
      visitVariableDeclarationOrAssignment (fuel + 1) false (.plain name) none e st =
        .ok .vnone (setVarInScope s sid name (.float q) false)) ∧
    okVal (evalExpr 9 (.add (.floatLit (mkRat 3 2)) (.floatLit (mkRat 3 2))) initSt) =
      some (.float (mkRat 3 1)) ∧
    (mkRat 3 1).den = 1 := by
  refine ⟨?_, ?_, ?_, rfl, rfl⟩
  · intro fuel st name e q s he hq hp hv
    rw [visitVariableDeclarationOrAssignment, he]
    simp [hp, hv, narrowFloat, hq]
  · intro fuel st levels name e q s target he hq hw
    rw [visitVariableDeclarationOrAssignment, he]
    simp [hw, narrowFloat, hq]
  · intro fuel st name e q s sid he hf
    rw [visitVariableDeclarationOrAssignment, he]
    simp [hf]

/-- Witness for C4 at concrete inputs. -/
theorem c4_witness :
    evalExpr 5 (.floatLit (mkRat 3 1)) initSt = .ok (.float (mkRat 3 1)) initSt ∧
    (mkRat 3 1).den = 1 ∧
    is_parameter initSt.scopes initSt.scopes.length initSt.currentScope "x" = false ∧
    hasVarIn initSt.scopes initSt.currentScope "x" = false ∧
    visitVariableDeclarationOrAssignment 6 true (.plain "x") none
        (.floatLit (mkRat 3 1)) initSt =
      .ok .vnone (setVarInScope initSt initSt.currentScope "x" (.int 3) false) ∧
    findScopeWith stC4w.scopes stC4w.scopes.length stC4w.currentScope "x" = some 0 ∧
    visitVariableDeclarationOrAssignment 6 false (.plain "x") none
        (.floatLit (mkRat 3 1)) stC4w =
      .ok .vnone (setVarInScope stC4w 0 "x" (.float (mkRat 3 1)) false) := by
  refine ⟨rfl, rfl, rfl, rfl, ?_, rfl, ?_⟩
  · exact c4_narrowing.1 5 initSt "x" (.floatLit (mkRat 3 1)) (mkRat 3 1) initSt
      rfl rfl rfl rfl
  · exact c4_narrowing.2.2.1 5 stC4w "x" (.floatLit (mkRat 3 1)) (mkRat 3 1) stC4w 0
      rfl rfl

/-- Claim C5, counterexample: the interpreter's `/` is Python floor
division, not truncating division: `-7 / 2` evaluates to `-4`, while
truncation toward zero gives `-3`. -/
theorem c5_counterexample :
    okVal (evalExpr 9 (.div (.neg (.intLit 7)) (.intLit 2)) initSt) =
      some (.int (-4)) ∧
    truncDivZ (-7) 2 = -3 ∧
    (-4 : ℤ) ≠ -3 :=
  ⟨rfl, rfl, by decide⟩

/-- Claim C5 (amended): with an integer right operand and a
non-floating-point (integer) left operand, `/` is *floor* division —
which agrees with truncation on nonnegative operands, so `7 / 2 = 3`;
with a float left operand it is real division (`7.0 / 2 = 3.5`); and
`7 % 2 = 1`. -/
theorem c5_division :
    (∀ (fuel : ℕ) (a b : ℤ) (st : St), b ≠ 0 →
      evalExpr (fuel + 3) (.div (.intLit a) (.intLit b)) st =
        .ok (.int (Int.fdiv a b)) st) ∧
    (∀ (fuel : ℕ) (q : ℚ) (b : ℤ) (st : St), b ≠ 0 →
      evalExpr (fuel + 3) (.div (.floatLit q) (.intLit b)) st =
        .ok (.float (q / (b : ℚ))) st) ∧
    okVal (evalExpr 9 (.div (.intLit 7) (.intLit 2)) initSt) = some (.int 3) ∧
    okVal (evalExpr 9 (.div (.floatLit (mkRat 7 1)) (.intLit 2)) initSt) =
      some (.float (mkRat 7 2)) ∧
    mkRat 7 1 = (7 : ℚ) ∧
    mkRat 7 2 = (3.5 : ℚ) ∧
    okVal (evalExpr 9 (.mod (.intLit 7) (.intLit 2)) initSt) = some (.int 1) := by
  refine ⟨?_, ?_, rfl, rfl, by rw [Rat.mkRat_eq_div]; norm_num,
    by rw [Rat.mkRat_eq_div]; norm_num, rfl⟩
  · intro fuel a b st hb
    simp [evalExpr, evalBin, termDiv, isIntV, isFloatV, pyFloorDiv, pyIntOf, hb]
  · intro fuel q b st hb
    have hbq : (b : ℚ) ≠ 0 := Int.cast_ne_zero.mpr hb
    simp [evalExpr, evalBin, termDiv, isIntV, isFloatV, pyTrueDiv, numQ, hbq, qDiv_eq]

/-- Witness for C5 at concrete inputs. -/
theorem c5_witness :
    (2 : ℤ) ≠ 0 ∧
    evalExpr 9 (.div (.intLit 7) (.intLit 2)) initSt = .ok (.int (Int.fdiv 7 2)) initSt ∧
    evalExpr 9 (.div (.floatLit (mkRat 7 1)) (.intLit 2)) initSt =
      .ok (.float (mkRat 7 1 / (2 : ℚ))) initSt := by
  refine ⟨by decide, ?_, ?_⟩
  · exact c5_division.1 6 7 2 initSt (by decide)
  · exact c5_division.2.1 6 (mkRat 7 1) 2 initSt (by decide)

/-- Claim C8, counterexample: in `progC8` the explicit-parent
declaration `parent::x` targets the *immediate* parent, so no scope
lies strictly between the current scope and the target; yet the
declaration is rejected, because the guard's walk starts at the current
scope (which holds the local `x`). The companion program `progC8b`
shows the second half of the claim, which holds: a plain write through
`parent::x` is not rejected and lands in the parent despite the local
shadow. -/
theorem c8_counterexample :
    errOf (runProg 30 progC8) = some .ambiguousShadowedDeclaration ∧
    outLines (runProg 30 progC8b) = some ["2"] :=
  ⟨rfl, rfl⟩

/-- Claim C8 (amended): a declaration through an explicit-parent target
is rejected with the AmbiguousShadowedDeclaration fault iff some scope
on the walk from the *current scope (inclusive)* up to, but excluding,
the resolved target scope binds the name; a plain (non-declaration)
write through an explicit-parent reference is never checked by this
guard and writes into the resolved ancestor scope; the guard's walk is
exactly an existence test over the walked chain, which starts at the
current scope. -/
theorem c8_shadow_guard :
    (∀ (fuel : ℕ) (st : St) (levels : ℕ) (name : String) (ty : Option Ty)
        (e : Expr) (v : Val) (s : St) (v2 : Val) (target : ℕ),
      evalExpr fuel e st = .ok v s →
      (match ty with
        | some t => cast_value v (some t)
        | none => Except.ok (narrowFloat v)) = .ok v2 →
      walkParents s.scopes s.currentScope levels = some target →
      ((variableExistsInChildScopes s.scopes s.scopes.length s.currentScope target name = true →
          visitVariableDeclarationOrAssignment (fuel + 1) true (.scopedT levels name) ty e st =
            .err .ambiguousShadowedDeclaration s) ∧
       (variableExistsInChildScopes s.scopes s.scopes.length s.currentScope target name = false →
          visitVariableDeclarationOrAssignment (fuel + 1) true (.scopedT levels name) ty e st =
            .ok .vnone (setVarInScope s target name v2 false)) ∧
       visitVariableDeclarationOrAssignment (fuel + 1) false (.scopedT levels name) ty e st =
         .ok .vnone (setVarInScope s target name v2 false))) ∧
    (∀ (scopes : List Scope) (fuel cur target : ℕ) (name : String),
      cur ≠ target → hasVarIn scopes cur name = true →
      variableExistsInChildScopes scopes (fuel + 1) cur target name = true) ∧
    (∀ (scopes : List Scope) (fuel cur target : ℕ) (name : String),
      variableExistsInChildScopes scopes fuel cur target name =
        (childChain scopes fuel cur target).any
          (fun sid => hasVarIn scopes sid name)) := by
  refine ⟨?_, ?_, ?_⟩
  · intro fuel st levels name ty e v s v2 target he hcast hw
    refine ⟨?_, ?_, ?_⟩
    · intro hex
      rw [visitVariableDeclarationOrAssignment, he]
      simp [hcast, hw, hex]
    · intro hex
      rw [visitVariableDeclarationOrAssignment, he]
      simp [hcast, hw, hex]
    · rw [visitVariableDeclarationOrAssignment, he]
      simp [hcast, hw]
  · intro scopes fuel cur target name hct hv
    rw [variableExistsInChildScopes]
    simp only [hct, if_false]
    unfold hasVarIn at hv
    cases hsc : scopes[cur]? with
    | none => rw [hsc] at hv; simp at hv
    | some sc =>
      rw [hsc] at hv
      simp only [] at hv
      simp [hsc, hv]
  · intro scopes fuel
    induction fuel with
    | zero =>
      intro cur target name
      simp [variableExistsInChildScopes, childChain]
    | succ f ih =>
      intro cur target name
      by_cases hct : cur = target
      · simp [variableExistsInChildScopes, childChain, hct]
      · cases hsc : scopes[cur]? with
        | none =>
          simp [variableExistsInChildScopes, childChain, hct, hsc, hasVarIn]
        | some sc =>
          by_cases hv : (lookupA sc.vars name).isSome
          · cases hp : sc.parent with
            | none =>
              simp [variableExistsInChildScopes, childChain, hct, hsc, hv, hasVarIn, hp]
            | some p =>
              simp [variableExistsInChildScopes, childChain, hct, hsc, hv, hasVarIn, hp]
          · cases hp : sc.parent with
            | none =>
              simp [variableExistsInChildScopes, childChain, hct, hsc, hv, hasVarIn, hp]
            | some p =>
              simp [variableExistsInChildScopes, childChain, hct, hsc, hv, hasVarIn, hp, ih]

/-- Witness for C8 at concrete inputs (a two-scope state whose inner
scope holds `x`, declaring and writing `parent::x`). -/
theorem c8_witness :
    evalExpr 3 (.intLit 2) stC8w = .ok (.int 2) stC8w ∧
    (Except.ok (narrowFloat (.int 2)) : Except RErr Val) = .ok (.int 2) ∧
    walkParents stC8w.scopes stC8w.currentScope 1 = some 0 ∧
    variableExistsInChildScopes stC8w.scopes stC8w.scopes.length
      stC8w.currentScope 0 "x" = true ∧
    visitVariableDeclarationOrAssignment 4 true (.scopedT 1 "x") none
        (.intLit 2) stC8w = .err .ambiguousShadowedDeclaration stC8w ∧
    visitVariableDeclarationOrAssignment 4 false (.scopedT 1 "x") none
        (.intLit 2) stC8w = .ok .vnone (setVarInScope stC8w 0 "x" (.int 2) false) := by
  refine ⟨rfl, rfl, rfl, rfl, ?_, ?_⟩
  · exact (c8_shadow_guard.1 3 stC8w 1 "x" none (.intLit 2) (.int 2) stC8w
      (.int 2) 0 rfl rfl rfl).1 rfl
  · exact (c8_shadow_guard.1 3 stC8w 1 "x" none (.intLit 2) (.int 2) stC8w
      (.int 2) 0 rfl rfl rfl).2.2

/-- Claim C9, counterexample: `[[1,2],[3,4,5]]` is not a 2×2 matrix,
yet inverting it faults with the internal unpack error (the dimension
guard only checks the row count and the *first* row's length), not
with the UnsupportedDimension fault the claim requires for every
non-2×2 shape. -/
theorem c9_counterexample :
    invert_matrix [.list [.float (mkRat 1 1), .float (mkRat 2 1)],
                   .list [.float (mkRat 3 1), .float (mkRat 4 1), .float (mkRat 5 1)]] =
      .error .unpackError ∧
    RErr.unpackError ≠ RErr.unsupportedDimension :=
  ⟨rfl, by decide⟩

/-- Claim C9 (amended): for a 2×2 float matrix `[[a,b],[c,d]]`,
inversion faults with NotInvertible when `a*d - b*c = 0` and otherwise
yields the closed-form inverse `[[d/det, -b/det], [-c/det, a/det]]`;
a matrix with a row count other than 2, or whose *first* row does not
have length 2, faults with UnsupportedDimension (a 2-row matrix with a
well-formed first row but ragged second row instead faults with an
internal unpack error); the spec's two examples hold. -/
theorem c9_invert :
    (∀ a b c d : ℚ, a * d - b * c ≠ 0 →
      invert_matrix [.list [.float a, .float b], .list [.float c, .float d]] =
        .ok [.list [.float (d / (a * d - b * c)), .float (-b / (a * d - b * c))],
             .list [.float (-c / (a * d - b * c)), .float (a / (a * d - b * c))]]) ∧
    (∀ a b c d : ℚ, a * d - b * c = 0 →
      invert_matrix [.list [.float a, .float b], .list [.float c, .float d]] =
        .error .notInvertible) ∧
    (∀ rows : List Val, rows.length ≠ 2 →
      invert_matrix rows = .error .unsupportedDimension) ∧
    (∀ (e0 : List Val) (r1 : Val), e0.length ≠ 2 →
      invert_matrix [.list e0, r1] = .error .unsupportedDimension) ∧
    invert_matrix [.list [.float (mkRat 1 1), .float (mkRat 2 1)],
                   .list [.float (mkRat 3 1), .float (mkRat 4 1)]] =
      .ok [.list [.float (mkRat (-2) 1), .float (mkRat 1 1)],
           .list [.float (mkRat 3 2), .float (mkRat (-1) 2)]] ∧
    invert_matrix [.list [.float (mkRat 1 1), .float (mkRat 2 1)],
                   .list [.float (mkRat 2 1), .float (mkRat 4 1)]] =
      .error .notInvertible := by
  refine ⟨?_, ?_, ?_, ?_, rfl, rfl⟩
  · intro a b c d hdet
    have hq : qSub (qMul a d) (qMul b c) = a * d - b * c := by
      rw [qMul_eq, qMul_eq, qSub_eq]
    have hne : (qSub (qMul a d) (qMul b c) == (0 : ℚ)) = false := by
      rw [hq]
      exact beq_false_of_ne hdet
    simp [invert_matrix, pyMul, pySub, pyTrueDiv, pyNeg, pyEq, numQ, isFloatV,
      mkNum, Except.bind, hq, hne, hdet, qDiv_eq, qNeg_eq]
  · intro a b c d hdet
    have hq : qSub (qMul a d) (qMul b c) = a * d - b * c := by
      rw [qMul_eq, qMul_eq, qSub_eq]
    have heq : (qSub (qMul a d) (qMul b c) == (0 : ℚ)) = true := by
      rw [hq, hdet]
      exact beq_self_eq_true 0
    simp [invert_matrix, pyMul, pySub, pyEq, numQ, isFloatV, mkNum,
      Except.bind, heq]
  · intro rows hlen
    match rows with
    | [] => rfl
    | [_] => rfl
    | [r0, r1] => simp at hlen
    | _ :: _ :: _ :: _ => rfl
  · intro e0 r1 hlen
    simp [invert_matrix, hlen]

/-- Witness for C9 at concrete inputs. -/
theorem c9_witness :
    (mkRat 1 1 * mkRat 4 1 - mkRat 2 1 * mkRat 3 1 : ℚ) ≠ 0 ∧
    invert_matrix [.list [.float (mkRat 1 1), .float (mkRat 2 1)],
                   .list [.float (mkRat 3 1), .float (mkRat 4 1)]] =
      .ok [.list [.float ((mkRat 4 1) / (mkRat 1 1 * mkRat 4 1 - mkRat 2 1 * mkRat 3 1)),
                  .float ((-(mkRat 2 1)) / (mkRat 1 1 * mkRat 4 1 - mkRat 2 1 * mkRat 3 1))],
           .list [.float ((-(mkRat 3 1)) / (mkRat 1 1 * mkRat 4 1 - mkRat 2 1 * mkRat 3 1)),
                  .float ((mkRat 1 1) / (mkRat 1 1 * mkRat 4 1 - mkRat 2 1 * mkRat 3 1))]] ∧
    ([Val.int 1] : List Val).length ≠ 2 ∧
    invert_matrix [.list [Val.int 1], .list [Val.int 2, Val.int 3]] =
      .error .unsupportedDimension := by
  have hdet : (mkRat 1 1 * mkRat 4 1 - mkRat 2 1 * mkRat 3 1 : ℚ) ≠ 0 := by
    rw [Rat.mkRat_eq_div, Rat.mkRat_eq_div, Rat.mkRat_eq_div, Rat.mkRat_eq_div]
    norm_num
  refine ⟨hdet, ?_, by decide, ?_⟩
  · exact c9_invert.1 (mkRat 1 1) (mkRat 2 1) (mkRat 3 1) (mkRat 4 1) hdet
  · exact c9_invert.2.2.2.1 [Val.int 1] (.list [Val.int 2, Val.int 3]) (by decide)

/-- Claim C7: a bare increment/decrement whose target is bound (in the
interpreter's flat `memory` store, the one `visitOperation` consults) to
a numeric value mutates that binding in place and yields the new value;
a non-numeric binding faults with the NonNumericIncrement error. -/
theorem c7_increment_decrement :
    (∀ (st : St) (name : String) (n : ℤ),
      lookupA st.memory name = some (.int n) →
      visitOperation name true st =
        .ok (.int (n + 1)) { st with memory := insertA st.memory name (.int (n + 1)) } ∧
      visitOperation name false st =
        .ok (.int (n - 1)) { st with memory := insertA st.memory name (.int (n - 1)) }) ∧
    (∀ (st : St) (name : String) (q : ℚ),
      lookupA st.memory name = some (.float q) →
      visitOperation name true st =
        .ok (.float (q + 1)) { st with memory := insertA st.memory name (.float (q + 1)) }) ∧
    (∀ (st : St) (name : String) (v : Val),
      lookupA st.memory name = some v → isNumV v = false →
      visitOperation name true st = .err .nonNumericIncrement st ∧
      visitOperation name false st = .err .nonNumericIncrement st) := by
  refine ⟨?_, ?_, ?_⟩
  · intro st name n h
    constructor <;> simp [visitOperation, h]
  · intro st name q h
    have h1 : qAdd q 1 = q + 1 := qAdd_eq q 1
    simp [visitOperation, h, h1]
  · intro st name v h hv
    cases v <;> simp_all [visitOperation, isNumV, numQ]

/-- Witness for C7 at concrete inputs. -/
theorem c7_witness :
    lookupA [("x", Val.int 5)] "x" = some (.int 5) ∧
    isNumV (Val.str "a") = false ∧
    visitOperation "x" true { initSt with memory := [("x", .int 5)] } =
      .ok (.int 6) { initSt with memory := [("x", .int 6)] } ∧
    visitOperation "x" true { initSt with memory := [("x", .str "a")] } =
      .err .nonNumericIncrement { initSt with memory := [("x", .str "a")] } := by
  refine ⟨rfl, rfl, ?_, ?_⟩
  · exact (c7_increment_decrement.1 { initSt with memory := [("x", .int 5)] } "x" 5 rfl).1
  · exact ((c7_increment_decrement.2.2 { initSt with memory := [("x", .str "a")] } "x"
      (.str "a") rfl rfl)).1

/-- Claim C6, counterexample: with two matrix (list) operands — neither
a string — the interpreter's `+` yields the concatenation of the rows,
which is not a numeric value at all, so "otherwise numeric addition"
fails as stated. -/
theorem c6_counterexample :
    numAdd (Val.list [Val.int 1]) (Val.list [Val.int 2]) =
      .ok (.list [.int 1, .int 2]) ∧
    isStrV (Val.list [Val.int 1]) = false ∧
    isStrV (Val.list [Val.int 2]) = false ∧
    isNumV (Val.list [Val.int 1, Val.int 2]) = false :=
  ⟨rfl, rfl, rfl, rfl⟩

/-- Claim C6 (amended): `+` concatenates textual forms when either
operand is a string, adds numerically when both operands are numeric
(preserving int unless a float is involved), and concatenates two
lists; `-` faults with the TypeMismatch error whenever either operand
fails the interpreter's numeric test (booleans count as numeric, as in
Python), and numeric subtraction is type-preserving. The spec's
examples hold. -/
theorem c6_add_sub_semantics :
    (∀ l r : Val, (isStrV l || isStrV r) = true →
      numAdd l r = .ok (.str (pyStr l ++ pyStr r))) ∧
    (∀ a b : ℤ, numAdd (.int a) (.int b) = .ok (.int (a + b))) ∧
    (∀ (a : ℤ) (q : ℚ),
      numAdd (.int a) (.float q) = .ok (.float ((a : ℚ) + q)) ∧
      numAdd (.float q) (.int a) = .ok (.float (q + (a : ℚ)))) ∧
    (∀ xs ys : List Val, numAdd (.list xs) (.list ys) = .ok (.list (xs ++ ys))) ∧
    (∀ l r : Val, (isNumV l && isNumV r) = false →
      numSub l r = .error .typeMismatch) ∧
    (∀ a b : ℤ, numSub (.int a) (.int b) = .ok (.int (a - b))) ∧
    (∀ (a : ℤ) (q : ℚ),
      numSub (.int a) (.float q) = .ok (.float ((a : ℚ) - q)) ∧
      numSub (.float q) (.int a) = .ok (.float (q - (a : ℚ)))) ∧
    (∀ p q : ℚ, numSub (.float p) (.float q) = .ok (.float (p - q))) ∧
    okVal (evalExpr 9 (.add (.intLit 1) (.strLit "x")) initSt) = some (.str "1x") ∧
    okVal (evalExpr 9 (.add (.strLit "x") (.intLit 1)) initSt) = some (.str "x1") ∧
    okVal (evalExpr 9 (.sub (.intLit 2) (.floatLit (mkRat 1 1))) initSt) =
      some (.float 1) ∧
    errOf (evalExpr 9 (.sub (.strLit "a") (.intLit 1)) initSt) = some .typeMismatch := by
  refine ⟨?_, ?_, ?_, ?_, ?_, ?_, ?_, ?_, rfl, rfl, rfl, rfl⟩
  · intro l r h
    simp [numAdd, h]
  · intro a b
    have h1 : (qAdd (a : ℚ) (b : ℚ)).num = a + b := by
      rw [qAdd_eq, show (a : ℚ) + (b : ℚ) = ((a + b : ℤ) : ℚ) from by push_cast; ring,
        Rat.num_intCast]
    simp [numAdd, isStrV, pyAdd, numQ, mkNum, isFloatV, h1]
  · intro a q
    constructor <;>
      simp [numAdd, isStrV, pyAdd, numQ, mkNum, isFloatV, qAdd_eq, add_comm]
  · intro xs ys
    simp [numAdd, isStrV, pyAdd, numQ]
  · intro l r h
    simp [numSub, h]
  · intro a b
    have h1 : (qSub (a : ℚ) (b : ℚ)).num = a - b := by
      rw [qSub_eq, show (a : ℚ) - (b : ℚ) = ((a - b : ℤ) : ℚ) from by push_cast; ring,
        Rat.num_intCast]
    simp [numSub, isNumV, numQ, pySub, mkNum, isFloatV, h1]
  · intro a q
    constructor <;> simp [numSub, isNumV, numQ, pySub, mkNum, isFloatV, qSub_eq]
  · intro p q
    simp [numSub, isNumV, numQ, pySub, mkNum, isFloatV, qSub_eq]

/-- Witness for C6 at concrete inputs. -/
theorem c6_witness :
    (isStrV (Val.str "x") || isStrV (Val.int 1)) = true ∧
    numAdd (.str "x") (.int 1) = .ok (.str "x1") ∧
    (isNumV (Val.str "a") && isNumV (Val.int 1)) = false ∧
    numSub (.str "a") (.int 1) = .error .typeMismatch ∧
    numAdd (.int 2) (.int 3) = .ok (.int 5) := by
  refine ⟨rfl, ?_, rfl, ?_, ?_⟩
  · exact c6_add_sub_semantics.1 (.str "x") (.int 1) rfl
  · exact c6_add_sub_semantics.2.2.2.2.1 (.str "a") (.int 1) rfl
  · exact c6_add_sub_semantics.2.1 2 3
